import Mathlib

/-!
Shallow embedding of the fanout partitioned writer of `icelake`
(`src/icelake/src/io_v2/functional_writer/partition_writer.rs`).

External collaborators — the inner writer builder `B`, the inner writers
`B::R`, the `PartitionSplitter` used through `split_by_partition` and
`convert_key_to_value` — live outside the excerpt and are abstracted into an
environment `FanoutEnv` of (possibly failing) operations. Rust `&mut self`
methods are embedded as state-passing functions: a call returns the mutated
state together with the call's `Result`, so mutations that happen before an
error are kept exactly as in the source. The `HashMap<PartitionKey, B::R>`
is embedded as an association list with pairwise-distinct keys; iteration
order of the map stands in for the list's order.
-/

/-- A result record (`IcebergWriteResult`). Modelled from the spec: the
Result Record "exposes a mutable partition-attribute setter used only by the
fanout writer at finalize time"; the trait's code is outside the excerpt.
`data` stands for the rest of the record's payload. -/
structure ResultRecord (D PV : Type) where
  data : D
  partition : Option PV
deriving DecidableEq

/-- `IcebergWriteResult::set_partition`. Modelled from the spec: "mutable
only to attach a partition value (a single field overwrite)". -/
def ResultRecord.set_partition {D PV : Type} (r : ResultRecord D PV) (pv : Option PV) :
    ResultRecord D PV :=
  { r with partition := pv }

/-- The external collaborator operations consumed by `FanoutPartitionedWriter`:
`split_by_partition` and `convert_key_to_value` of the stored
`PartitionSplitter`, `build` of the inner writer builder (applied to a clone
of the stored builder template and the stored schema), and the inner
writer's `write` and `flush`. `innerWrite` models `B::R::write(&mut self,
batch)`: it returns the inner writer's new state together with the result,
and `innerFlush` models `B::R::flush(&mut self)`; the flushed writer is
dropped by the caller so its post-state is not needed. -/
structure FanoutEnv (K W B S Batch D PV E : Type) where
  split_by_partition : Batch → Except E (List (K × Batch))
  build : B → S → Except E W
  innerWrite : W → Batch → W × Except E Unit
  innerFlush : W → Except E (List (ResultRecord D PV))
  convert_key_to_value : K → Except E PV

/-- `FanoutPartitionedWriterMetrics`. -/
structure FanoutPartitionedWriterMetrics where
  partition_num : Nat
deriving DecidableEq

/-- `FanoutPartitionedWriter`: the map of per-key inner writers, the stored
inner builder template and the stored schema. The `partition_splitter` field
of the source is carried by `FanoutEnv` (its two methods), since the
splitter's own code is outside the excerpt. -/
structure FanoutPartitionedWriter (K W B S : Type) where
  inner_writers : List (K × W)
  inner_buidler : B
  schema : S
deriving DecidableEq

/-- `HashMap` lookup on the association-list embedding. -/
def lookupKey {K W : Type} [DecidableEq K] : List (K × W) → K → Option W
  | [], _ => none
  | (k', w) :: rest, k => if k = k' then some w else lookupKey rest k

/-- `HashMap` in-place value update on the association-list embedding. -/
def updateKey {K W : Type} [DecidableEq K] : List (K × W) → K → W → List (K × W)
  | [], _, _ => []
  | (k', w') :: rest, k, w => if k = k' then (k, w) :: rest else (k', w') :: updateKey rest k w

/-- The body of the per-`(key, sub-batch)` loop of
`FanoutPartitionedWriter::write` (`self.inner_writers.entry(row)`):
`Entry::Occupied` writes through the existing inner writer (the map keeps
its possibly-mutated state), `Entry::Vacant` first builds a new inner
writer from the builder template `bld` and schema `sch`, inserts it, then
writes the sub-batch to it — the inserted writer stays in the map even if
that write fails. -/
def writeEntry {K W B S Batch D PV E : Type} [DecidableEq K]
    (env : FanoutEnv K W B S Batch D PV E) (bld : B) (sch : S)
    (m : List (K × W)) (k : K) (b : Batch) : List (K × W) × Except E Unit :=
  match lookupKey m k with
  | some wr =>
    (updateKey m k (env.innerWrite wr b).1, (env.innerWrite wr b).2)
  | none =>
    match env.build bld sch with
    | Except.error e => (m, Except.error e)
    | Except.ok nw => (m ++ [(k, (env.innerWrite nw b).1)], (env.innerWrite nw b).2)

/-- The `for (row, batch) in split_batch.into_iter()` loop of
`FanoutPartitionedWriter::write`: entries are processed in order, the first
failure aborts the rest of the loop with the map as mutated so far. -/
def writeGroups {K W B S Batch D PV E : Type} [DecidableEq K]
    (env : FanoutEnv K W B S Batch D PV E) (bld : B) (sch : S) :
    List (K × W) → List (K × Batch) → List (K × W) × Except E Unit
  | m, [] => (m, Except.ok ())
  | m, g :: rest =>
    match writeEntry env bld sch m g.1 g.2 with
    | (m', Except.ok _) => writeGroups env bld sch m' rest
    | (m', Except.error e) => (m', Except.error e)

/-- `FanoutPartitionedWriter::write`: split the batch by partition, then run
the entry loop with the stored builder template and schema. A split failure
is propagated with the writer unchanged. -/
def FanoutPartitionedWriter.write {K W B S Batch D PV E : Type} [DecidableEq K]
    (w : FanoutPartitionedWriter K W B S) (env : FanoutEnv K W B S Batch D PV E)
    (batch : Batch) : FanoutPartitionedWriter K W B S × Except E Unit :=
  match env.split_by_partition batch with
  | Except.error e => (w, Except.error e)
  | Except.ok split_batch =>
    ({ w with inner_writers :=
        (writeGroups env w.inner_buidler w.schema w.inner_writers split_batch).1 },
     (writeGroups env w.inner_buidler w.schema w.inner_writers split_batch).2)

/-- The `for (key, mut writer) in inner_writers.into_iter()` loop of
`FanoutPartitionedWriter::flush`: per entry, convert the key to its
partition value, flush the inner writer, stamp every yielded record with
`Some(partition_value)` and extend the accumulated `res_vec`; the first
failure aborts the loop, discarding the accumulator. -/
def flushLoop {K W B S Batch D PV E : Type}
    (env : FanoutEnv K W B S Batch D PV E) :
    List (ResultRecord D PV) → List (K × W) → Except E (List (ResultRecord D PV))
  | acc, [] => Except.ok acc
  | acc, (k, wr) :: rest =>
    match env.convert_key_to_value k with
    | Except.error e => Except.error e
    | Except.ok pv =>
      match env.innerFlush wr with
      | Except.error e => Except.error e
      | Except.ok res =>
        flushLoop env (acc ++ res.map (fun r => r.set_partition (some pv))) rest

/-- `FanoutPartitionedWriter::flush`: `std::mem::take` empties the writer
map up front, then the drained entries are finalized by `flushLoop`. -/
def FanoutPartitionedWriter.flush {K W B S Batch D PV E : Type}
    (w : FanoutPartitionedWriter K W B S) (env : FanoutEnv K W B S Batch D PV E) :
    FanoutPartitionedWriter K W B S × Except E (List (ResultRecord D PV)) :=
  ({ w with inner_writers := [] }, flushLoop env [] w.inner_writers)

/-- `FanoutPartitionedWriter::metrics`: the number of open partitions is the
size of the writer map. -/
def FanoutPartitionedWriter.metrics {K W B S : Type}
    (w : FanoutPartitionedWriter K W B S) : FanoutPartitionedWriterMetrics :=
  { partition_num := w.inner_writers.length }

/-- `FanoutPartitionedWriterBuilder` (the `partition_type` and
`partition_spec` fields are configuration consumed by the splitter setup). -/
structure FanoutPartitionedWriterBuilder (B PT PS : Type) where
  inner : B
  partition_type : PT
  partition_spec : PS
deriving DecidableEq

/-- `FanoutPartitionedWriterBuilder::build`: the fallible construction of the
`FieldProjector` and the `PartitionSplitter` (code outside the excerpt) is
abstracted as `setup`; on success the writer starts with an empty map and
holds the builder's `inner` template and the given schema. -/
def FanoutPartitionedWriterBuilder.build {B PT PS S E : Type} (K W : Type)
    (bld : FanoutPartitionedWriterBuilder B PT PS) (setup : Except E Unit) (schema : S) :
    Except E (FanoutPartitionedWriter K W B S) :=
  match setup with
  | Except.error e => Except.error e
  | Except.ok _ =>
    Except.ok { inner_writers := [], inner_buidler := bld.inner, schema := schema }

/-- A sequence of `write` calls on one writer, as issued by a caller that
stops at the first error (each call in the sequence returned `Ok`). -/
def writeMany {K W B S Batch D PV E : Type} [DecidableEq K]
    (env : FanoutEnv K W B S Batch D PV E) :
    FanoutPartitionedWriter K W B S → List Batch →
      FanoutPartitionedWriter K W B S × Except E Unit
  | w, [] => (w, Except.ok ())
  | w, b :: rest =>
    match w.write env b with
    | (w', Except.ok _) => writeMany env w' rest
    | (w', Except.error e) => (w', Except.error e)

/-- The partition keys produced by splitting one batch (empty on a split
failure). -/
def splitKeys {K W B S Batch D PV E : Type}
    (env : FanoutEnv K W B S Batch D PV E) (b : Batch) : List K :=
  match env.split_by_partition b with
  | Except.ok l => l.map Prod.fst
  | Except.error _ => []

/-- All partition keys touched by a sequence of batches. -/
def collectKeys {K W B S Batch D PV E : Type}
    (env : FanoutEnv K W B S Batch D PV E) : List Batch → List K
  | [] => []
  | b :: rest => splitKeys env b ++ collectKeys env rest

/-- The number of records yielded by a successful inner flush (`0` for a
failed one). -/
def okLength {D PV E : Type} : Except E (List (ResultRecord D PV)) → Nat
  | Except.ok l => l.length
  | Except.error _ => 0

/-- `FanoutPartitionedWriterWithMetrics`: the decorator caches the last
observed metrics; the prometheus gauge it updates is an external shared
counter and is threaded explicitly through the operations. -/
structure FanoutPartitionedWriterWithMetrics (K W B S : Type) where
  inner : FanoutPartitionedWriter K W B S
  current_metrics : FanoutPartitionedWriterMetrics
deriving DecidableEq

/-- `FanoutPartitionedWriterWithMetrics::update_metrics`: compute the signed
`i64` delta between the fresh and the previously recorded partition count
and apply it to the gauge (`add` on growth, `sub` on shrink). The gauge is
the `u64` counter supplied externally; its `add`/`sub` (prometheus code) are
modelled from the spec: "applies the signed delta to an externally supplied
cumulative counter (increment on growth, decrement on shrink)". -/
def FanoutPartitionedWriterWithMetrics.update_metrics {K W B S : Type}
    (d : FanoutPartitionedWriterWithMetrics K W B S) (gauge : Nat) :
    FanoutPartitionedWriterWithMetrics K W B S × Nat :=
  let newMetrics := d.inner.metrics
  let delta : Int := (newMetrics.partition_num : Int) - (d.current_metrics.partition_num : Int)
  ({ d with current_metrics := newMetrics },
   if delta > 0 then gauge + delta.toNat else gauge - delta.natAbs)

/-- `FanoutPartitionedWriterWithMetrics::write`: forward to the wrapped
writer; on success update the gauge, on failure propagate with the gauge
untouched (the `?` skips `update_metrics`). -/
def FanoutPartitionedWriterWithMetrics.write {K W B S Batch D PV E : Type} [DecidableEq K]
    (d : FanoutPartitionedWriterWithMetrics K W B S)
    (env : FanoutEnv K W B S Batch D PV E) (gauge : Nat) (batch : Batch) :
    (FanoutPartitionedWriterWithMetrics K W B S × Nat) × Except E Unit :=
  match d.inner.write env batch with
  | (w', Except.error e) => (({ d with inner := w' }, gauge), Except.error e)
  | (w', Except.ok _) =>
    (FanoutPartitionedWriterWithMetrics.update_metrics { d with inner := w' } gauge,
     Except.ok ())

/-- `FanoutPartitionedWriterWithMetrics::flush`: forward to the wrapped
writer; on success update the gauge and return the records, on failure
propagate with the gauge untouched. -/
def FanoutPartitionedWriterWithMetrics.flush {K W B S Batch D PV E : Type}
    (d : FanoutPartitionedWriterWithMetrics K W B S)
    (env : FanoutEnv K W B S Batch D PV E) (gauge : Nat) :
    (FanoutPartitionedWriterWithMetrics K W B S × Nat) × Except E (List (ResultRecord D PV)) :=
  match d.inner.flush env with
  | (w', Except.error e) => (({ d with inner := w' }, gauge), Except.error e)
  | (w', Except.ok res) =>
    (FanoutPartitionedWriterWithMetrics.update_metrics { d with inner := w' } gauge,
     Except.ok res)

/-- `FanoutPartitionedWriterWithMetricsBuilder::build`: build the wrapped
writer and start the cached metrics at `partition_num = 0`; the externally
supplied gauge is not reset. -/
def FanoutPartitionedWriterWithMetricsBuilder.build {B PT PS S E : Type} (K W : Type)
    (bld : FanoutPartitionedWriterBuilder B PT PS) (setup : Except E Unit) (schema : S) :
    Except E (FanoutPartitionedWriterWithMetrics K W B S) :=
  match FanoutPartitionedWriterBuilder.build K W bld setup schema with
  | Except.error e => Except.error e
  | Except.ok w => Except.ok { inner := w, current_metrics := { partition_num := 0 } }

namespace PartitionSplitter

/-- Modelled from the spec: the partition key of one row. The
`PartitionSplitter`'s code is outside the excerpt; per the spec, `split`
"for every row index, evaluates each partition field's transform against the
row's projected source column value(s), in spec field order, concatenating
results into one Partition Key". A row is a list of column values, a
partition field is a projected source column position together with its
transform, and `dflt` is the default returned when a projection is out of
range (construction validates that it never is). -/
def rowKey {V PVal : Type} (dflt : V) (fields : List (Nat × (V → PVal)))
    (row : List V) : List PVal :=
  fields.map (fun f => f.2 (row.getD f.1 dflt))

/-- Modelled from the spec: grouping of rows by an arbitrary key function —
"rows are grouped by equal key into contiguous-by-appearance buckets (bucket
row order matches input order; bucket emission order is unspecified)"; this
model emits buckets in first-appearance order of the keys. -/
def splitGeneric {ρ PVal : Type} [DecidableEq PVal] (keyOf : ρ → List PVal)
    (batch : List ρ) : List (List PVal × List ρ) :=
  ((batch.map keyOf).dedup).map
    (fun k => (k, batch.filter (fun r => decide (keyOf r = k))))

/-- Modelled from the spec: `PartitionSplitter::split_by_partition` groups
the batch's rows by the partition key derived from the projected source
columns only; each sub-batch keeps the full original rows (all columns) in
input order. -/
def split_by_partition {V PVal : Type} [DecidableEq PVal] (dflt : V)
    (fields : List (Nat × (V → PVal))) (batch : List (List V)) :
    List (List PVal × List (List V)) :=
  splitGeneric (rowKey dflt fields) batch

end PartitionSplitter

/-! ### Helper lemmas about the flush loop -/

theorem flushLoop_ok_length {K W B S Batch D PV E : Type}
    (env : FanoutEnv K W B S Batch D PV E) (l : List (K × W)) :
    ∀ (acc res : List (ResultRecord D PV)), flushLoop env acc l = Except.ok res →
      res.length = acc.length + (l.map (fun kw => okLength (env.innerFlush kw.2))).sum := by
  induction l with
  | nil => intro acc res h; simp [flushLoop] at h; simp [h.symm]
  | cons p rest ih =>
    intro acc res h
    obtain ⟨k, wr⟩ := p
    unfold flushLoop at h
    cases hc : env.convert_key_to_value k with
    | error e => rw [hc] at h; exact absurd h (by simp)
    | ok pv =>
      rw [hc] at h
      cases hf : env.innerFlush wr with
      | error e => rw [hf] at h; exact absurd h (by simp)
      | ok out =>
        rw [hf] at h
        have := ih _ res h
        simp only [List.length_append, List.length_map] at this
        simp [this, okLength, hf]
        omega

theorem flushLoop_ok_mem {K W B S Batch D PV E : Type}
    (env : FanoutEnv K W B S Batch D PV E) (l : List (K × W)) :
    ∀ (acc res : List (ResultRecord D PV)), flushLoop env acc l = Except.ok res →
      ∀ r ∈ res, r ∈ acc ∨
        ∃ k wr out pv, (k, wr) ∈ l ∧
          env.convert_key_to_value k = Except.ok pv ∧
          env.innerFlush wr = Except.ok out ∧
          ∃ r0 ∈ out, r = r0.set_partition (some pv) := by
  induction l with
  | nil =>
    intro acc res h r hr
    simp [flushLoop] at h
    exact Or.inl (h ▸ hr)
  | cons p rest ih =>
    intro acc res h r hr
    obtain ⟨k, wr⟩ := p
    unfold flushLoop at h
    cases hc : env.convert_key_to_value k with
    | error e => rw [hc] at h; exact absurd h (by simp)
    | ok pv =>
      rw [hc] at h
      cases hf : env.innerFlush wr with
      | error e => rw [hf] at h; exact absurd h (by simp)
      | ok out =>
        rw [hf] at h
        rcases ih _ res h r hr with hacc | ⟨k', wr', out', pv', hmem, hc', hf', hr0⟩
        · rcases List.mem_append.mp hacc with hl | hnew
          · exact Or.inl hl
          · obtain ⟨r0, hr0, hr0eq⟩ := List.mem_map.mp hnew
            exact Or.inr ⟨k, wr, out, pv, List.mem_cons_self _ _, hc, hf, r0, hr0, hr0eq.symm⟩
        · exact Or.inr ⟨k', wr', out', pv', List.mem_cons_of_mem _ hmem, hc', hf', hr0⟩

theorem flushLoop_error {K W B S Batch D PV E : Type}
    (env : FanoutEnv K W B S Batch D PV E) (k : K) (wr : W) (pv : PV) (e : E)
    (l2 : List (K × W))
    (hconv : env.convert_key_to_value k = Except.ok pv)
    (hfail : env.innerFlush wr = Except.error e) :
    ∀ l1 : List (K × W),
      (∀ p ∈ l1, ∃ pv' out, env.convert_key_to_value p.1 = Except.ok pv' ∧
        env.innerFlush p.2 = Except.ok out) →
      ∀ acc : List (ResultRecord D PV),
        flushLoop env acc (l1 ++ (k, wr) :: l2) = Except.error e := by
  intro l1
  induction l1 with
  | nil => intro _ acc; simp [flushLoop, hconv, hfail]
  | cons p rest ih =>
    intro hpre acc
    obtain ⟨k', wr'⟩ := p
    obtain ⟨pv', out, hc', hf'⟩ := hpre (k', wr') (List.mem_cons_self _ _)
    simp only [List.cons_append]
    unfold flushLoop
    rw [hc', hf']
    exact ih (fun q hq => hpre q (List.mem_cons_of_mem _ hq)) _

/-! ### Helper lemmas about the splitter model -/

theorem splitGeneric_map {α β PVal : Type} [DecidableEq PVal]
    (f : α → β) (keyOf : β → List PVal) (keyOf' : α → List PVal) (l : List α)
    (h : ∀ a ∈ l, keyOf (f a) = keyOf' a) :
    PartitionSplitter.splitGeneric keyOf (l.map f) =
      (PartitionSplitter.splitGeneric keyOf' l).map (fun kb => (kb.1, kb.2.map f)) := by
  unfold PartitionSplitter.splitGeneric
  have h1 : (l.map f).map keyOf = l.map keyOf' := by
    rw [List.map_map]
    exact List.map_congr_left (fun a ha => h a ha)
  rw [h1, List.map_map]
  refine List.map_congr_left (fun k hk => ?_)
  simp only [Function.comp]
  refine congrArg (Prod.mk k) ?_
  rw [List.filter_map]
  exact congrArg (List.map f)
    (List.filter_congr (fun a ha => by simp [Function.comp_apply, h a ha]))

theorem rowKey_append {V PVal : Type} (dflt : V) (fields : List (Nat × (V → PVal)))
    (row extra : List V) (width : Nat)
    (hrow : row.length = width) (hf : ∀ f ∈ fields, f.1 < width) :
    PartitionSplitter.rowKey dflt fields (row ++ extra) =
      PartitionSplitter.rowKey dflt fields row := by
  unfold PartitionSplitter.rowKey
  refine List.map_congr_left (fun f hfmem => ?_)
  have hflt : f.1 < row.length := by
    have := hf f hfmem
    omega
  rw [List.getD_append _ _ _ _ hflt]

/-! ### Helper lemma about the metrics decorator gauge -/

theorem update_metrics_gauge {K W B S : Type}
    (d : FanoutPartitionedWriterWithMetrics K W B S) (gauge : Nat)
    (hg : gauge = d.current_metrics.partition_num) :
    (d.update_metrics gauge).2 = d.inner.metrics.partition_num ∧
    (d.update_metrics gauge).1.current_metrics = d.inner.metrics := by
  subst hg
  simp only [FanoutPartitionedWriterWithMetrics.update_metrics]
  refine ⟨?_, trivial⟩
  split_ifs with h <;> omega

/-! ### Helper lemmas about the association-list embedding of the map -/

theorem lookupKey_eq_none_iff {K W : Type} [DecidableEq K] (m : List (K × W)) (k : K) :
    lookupKey m k = none ↔ k ∉ m.map Prod.fst := by
  induction m with
  | nil => simp [lookupKey]
  | cons p rest ih =>
    obtain ⟨k', w⟩ := p
    by_cases h : k = k' <;> simp [lookupKey, h, ih]

theorem lookupKey_isSome_iff {K W : Type} [DecidableEq K] (m : List (K × W)) (k : K) :
    (lookupKey m k).isSome ↔ k ∈ m.map Prod.fst := by
  induction m with
  | nil => simp [lookupKey]
  | cons p rest ih =>
    obtain ⟨k', w⟩ := p
    by_cases h : k = k' <;> simp [lookupKey, h, ih]

theorem keys_updateKey {K W : Type} [DecidableEq K] (m : List (K × W)) (k : K) (w : W) :
    (updateKey m k w).map Prod.fst = m.map Prod.fst := by
  induction m with
  | nil => simp [updateKey]
  | cons p rest ih =>
    obtain ⟨k', w'⟩ := p
    by_cases h : k = k' <;> simp [updateKey, h, ih]

theorem writeEntry_keys_nodup {K W B S Batch D PV E : Type} [DecidableEq K]
    (env : FanoutEnv K W B S Batch D PV E) (bld : B) (sch : S)
    (m : List (K × W)) (k : K) (b : Batch)
    (hm : (m.map Prod.fst).Nodup) :
    ((writeEntry env bld sch m k b).1.map Prod.fst).Nodup := by
  unfold writeEntry
  cases hl : lookupKey m k with
  | some wr => simpa [keys_updateKey] using hm
  | none =>
    cases hb : env.build bld sch with
    | error e => simpa using hm
    | ok nw =>
      have hk : k ∉ m.map Prod.fst := (lookupKey_eq_none_iff m k).mp hl
      rw [List.map_append]
      refine List.nodup_append.mpr ⟨hm, List.nodup_singleton _, ?_⟩
      intro a ha hak
      simp only [List.map_cons, List.map_nil, List.mem_singleton] at hak
      exact hk (hak ▸ ha)

theorem writeGroups_keys_nodup {K W B S Batch D PV E : Type} [DecidableEq K]
    (env : FanoutEnv K W B S Batch D PV E) (bld : B) (sch : S)
    (gs : List (K × Batch)) :
    ∀ m : List (K × W), (m.map Prod.fst).Nodup →
      ((writeGroups env bld sch m gs).1.map Prod.fst).Nodup := by
  induction gs with
  | nil => intro m hm; simpa [writeGroups] using hm
  | cons g rest ih =>
    intro m hm
    have hstep := writeEntry_keys_nodup env bld sch m g.1 g.2 hm
    unfold writeGroups
    cases hw : writeEntry env bld sch m g.1 g.2 with
    | mk m' r =>
      cases r with
      | ok u => exact ih m' (by simpa [hw] using hstep)
      | error e => simpa [hw] using hstep

theorem write_keys_nodup {K W B S Batch D PV E : Type} [DecidableEq K]
    (env : FanoutEnv K W B S Batch D PV E)
    (w : FanoutPartitionedWriter K W B S) (batch : Batch)
    (hm : (w.inner_writers.map Prod.fst).Nodup) :
    (((w.write env batch).1.inner_writers).map Prod.fst).Nodup := by
  unfold FanoutPartitionedWriter.write
  cases hs : env.split_by_partition batch with
  | error e => simpa using hm
  | ok sb => simpa using writeGroups_keys_nodup env w.inner_buidler w.schema sb w.inner_writers hm

theorem writeEntry_ok_mem_keys {K W B S Batch D PV E : Type} [DecidableEq K]
    (env : FanoutEnv K W B S Batch D PV E) (bld : B) (sch : S)
    (m : List (K × W)) (k : K) (b : Batch)
    (hok : (writeEntry env bld sch m k b).2 = Except.ok ()) (x : K) :
    x ∈ (writeEntry env bld sch m k b).1.map Prod.fst ↔ x ∈ m.map Prod.fst ∨ x = k := by
  unfold writeEntry at *
  cases hl : lookupKey m k with
  | some wr =>
    have hk : k ∈ m.map Prod.fst := by
      have : (lookupKey m k).isSome := by rw [hl]; rfl
      exact (lookupKey_isSome_iff m k).mp this
    simp only [hl, keys_updateKey]
    constructor
    · exact Or.inl
    · rintro (h | rfl)
      · exact h
      · exact hk
  | none =>
    cases hb : env.build bld sch with
    | error e => simp [hl, hb] at hok
    | ok nw => simp [hl, hb]

theorem writeGroups_ok_mem_keys {K W B S Batch D PV E : Type} [DecidableEq K]
    (env : FanoutEnv K W B S Batch D PV E) (bld : B) (sch : S)
    (gs : List (K × Batch)) :
    ∀ m : List (K × W), (writeGroups env bld sch m gs).2 = Except.ok () →
      ∀ x : K, x ∈ (writeGroups env bld sch m gs).1.map Prod.fst ↔
        x ∈ m.map Prod.fst ∨ x ∈ gs.map Prod.fst := by
  induction gs with
  | nil => intro m _ x; simp [writeGroups]
  | cons g rest ih =>
    intro m hok x
    unfold writeGroups at hok ⊢
    cases hw : writeEntry env bld sch m g.1 g.2 with
    | mk m' r =>
      cases r with
      | error e => simp [hw] at hok
      | ok u =>
        cases u
        have hstep := writeEntry_ok_mem_keys env bld sch m g.1 g.2 (by rw [hw]) x
        rw [hw] at hstep
        simp only [hw] at hok ⊢
        rw [ih m' hok x, hstep]
        simp only [List.map_cons, List.mem_cons]
        tauto

theorem write_ok_mem_keys {K W B S Batch D PV E : Type} [DecidableEq K]
    (env : FanoutEnv K W B S Batch D PV E)
    (w : FanoutPartitionedWriter K W B S) (batch : Batch)
    (hok : (w.write env batch).2 = Except.ok ()) (x : K) :
    x ∈ ((w.write env batch).1.inner_writers).map Prod.fst ↔
      x ∈ w.inner_writers.map Prod.fst ∨ x ∈ splitKeys env batch := by
  unfold FanoutPartitionedWriter.write at *
  unfold splitKeys
  cases hs : env.split_by_partition batch with
  | error e => simp [hs] at hok
  | ok sb =>
    simp only [hs] at hok ⊢
    exact writeGroups_ok_mem_keys env w.inner_buidler w.schema sb w.inner_writers hok x

theorem writeMany_ok_keys {K W B S Batch D PV E : Type} [DecidableEq K]
    (env : FanoutEnv K W B S Batch D PV E) (bs : List Batch) :
    ∀ w : FanoutPartitionedWriter K W B S,
      (writeMany env w bs).2 = Except.ok () →
      (w.inner_writers.map Prod.fst).Nodup →
      (((writeMany env w bs).1.inner_writers).map Prod.fst).Nodup ∧
      ∀ x : K, x ∈ ((writeMany env w bs).1.inner_writers).map Prod.fst ↔
        x ∈ w.inner_writers.map Prod.fst ∨ x ∈ collectKeys env bs := by
  induction bs with
  | nil => intro w _ hnd; refine ⟨by simpa [writeMany] using hnd, ?_⟩; simp [writeMany, collectKeys]
  | cons b rest ih =>
    intro w hok hnd
    unfold writeMany at hok ⊢
    cases hw : w.write env b with
    | mk w' r =>
      cases r with
      | error e => simp [hw] at hok
      | ok u =>
        cases u
        simp only [hw] at hok ⊢
        have hnd' : ((w'.inner_writers).map Prod.fst).Nodup := by
          have := write_keys_nodup env w b hnd
          rwa [hw] at this
        obtain ⟨hnd'', hmem⟩ := ih w' hok hnd'
        refine ⟨hnd'', fun x => ?_⟩
        have hstep := write_ok_mem_keys env w b (by rw [hw]) x
        rw [hw] at hstep
        rw [hmem x, hstep]
        simp only [collectKeys, List.mem_append]
        tauto

/-! ### Concrete instances used to exercise the definitions -/

/-- A concrete collaborator environment: keys are `x % 10`, an inner writer
counts the rows it received, a flush yields one record carrying that count,
and a key `k` converts to the partition value `k * 100`. -/
def demoEnv : FanoutEnv Nat Nat Unit Unit (List Nat) Nat Nat String where
  split_by_partition := fun b => Except.ok (b.map (fun x => (x % 10, [x])))
  build := fun _ _ => Except.ok 0
  innerWrite := fun w b => (w + b.length, Except.ok ())
  innerFlush := fun w => Except.ok [⟨w, none⟩]
  convert_key_to_value := fun k => Except.ok (k * 100)

/-- `demoEnv` with a failing partition split. -/
def demoEnvSplitFail : FanoutEnv Nat Nat Unit Unit (List Nat) Nat Nat String where
  split_by_partition := fun _ => Except.error "split"
  build := fun _ _ => Except.ok 0
  innerWrite := fun w b => (w + b.length, Except.ok ())
  innerFlush := fun w => Except.ok [⟨w, none⟩]
  convert_key_to_value := fun k => Except.ok (k * 100)

/-- `demoEnv` with a failing inner write (the writer state still advances
before the failure is reported). -/
def demoEnvWriteFail : FanoutEnv Nat Nat Unit Unit (List Nat) Nat Nat String where
  split_by_partition := fun b => Except.ok (b.map (fun x => (x % 10, [x])))
  build := fun _ _ => Except.ok 0
  innerWrite := fun w _ => (w + 1, Except.error "write")
  innerFlush := fun w => Except.ok [⟨w, none⟩]
  convert_key_to_value := fun k => Except.ok (k * 100)

/-- `demoEnv` where the inner writer in state `0` fails to flush. -/
def demoEnvFlushFail : FanoutEnv Nat Nat Unit Unit (List Nat) Nat Nat String where
  split_by_partition := fun b => Except.ok (b.map (fun x => (x % 10, [x])))
  build := fun _ _ => Except.ok 0
  innerWrite := fun w b => (w + b.length, Except.ok ())
  innerFlush := fun w => if w = 0 then Except.error "flush" else Except.ok [⟨w, none⟩]
  convert_key_to_value := fun k => Except.ok (k * 100)

/-- A writer holding two open partitions. -/
def demoWriter : FanoutPartitionedWriter Nat Nat Unit Unit :=
  { inner_writers := [(1, 5), (2, 7)], inner_buidler := (), schema := () }

/-- A freshly built writer (empty map). -/
def demoEmptyWriter : FanoutPartitionedWriter Nat Nat Unit Unit :=
  { inner_writers := [], inner_buidler := (), schema := () }

/-- A writer holding one healthy partition and one whose flush fails. -/
def demoFailWriter : FanoutPartitionedWriter Nat Nat Unit Unit :=
  { inner_writers := [(1, 3), (2, 0)], inner_buidler := (), schema := () }

/-- A decorator over a fresh writer, its cached metrics at zero. -/
def demoDecorator : FanoutPartitionedWriterWithMetrics Nat Nat Unit Unit :=
  { inner := demoEmptyWriter, current_metrics := { partition_num := 0 } }

/-- A concrete builder configuration. -/
def demoBuilder : FanoutPartitionedWriterBuilder Unit Unit Unit :=
  { inner := (), partition_type := (), partition_spec := () }

/-- A single identity-transformed partition field over column `0`. -/
def demoFields : List (Nat × (Nat → Nat)) := [(0, fun v => v)]

/-- Rows of width two paired with their extra trailing column values. -/
def demoPaired : List (List Nat × List Nat) :=
  [([1, 2], [9]), ([1, 3], [8]), ([2, 2], [7])]

/-! ### Claim theorems -/

/-- C1: for every `(key, sub-batch)` pair produced by splitting a batch
accepted by `FanoutPartitionedWriter::write`: an occupied map entry receives
the sub-batch through the existing inner writer's write; a vacant entry
first builds a new inner writer from the stored builder template against
the stored schema, inserts it under the key, then delivers the sub-batch to
it; and at every point the map holds at most one inner writer per distinct
partition key. -/
theorem fanout_write_routes_per_key_and_keeps_keys_unique
    {K W B S Batch D PV E : Type} [DecidableEq K]
    (env : FanoutEnv K W B S Batch D PV E) :
    (∀ (bld : B) (sch : S) (m : List (K × W)) (k : K) (b : Batch) (wr : W),
        lookupKey m k = some wr →
        writeEntry env bld sch m k b =
          (updateKey m k (env.innerWrite wr b).1, (env.innerWrite wr b).2)) ∧
    (∀ (bld : B) (sch : S) (m : List (K × W)) (k : K) (b : Batch),
        lookupKey m k = none →
        writeEntry env bld sch m k b =
          (match env.build bld sch with
           | Except.error e => (m, Except.error e)
           | Except.ok nw =>
             (m ++ [(k, (env.innerWrite nw b).1)], (env.innerWrite nw b).2))) ∧
    (∀ (w : FanoutPartitionedWriter K W B S) (batch : Batch) (sb : List (K × Batch)),
        env.split_by_partition batch = Except.ok sb →
        w.write env batch =
          ({ w with inner_writers :=
              (writeGroups env w.inner_buidler w.schema w.inner_writers sb).1 },
           (writeGroups env w.inner_buidler w.schema w.inner_writers sb).2)) ∧
    (∀ (w : FanoutPartitionedWriter K W B S) (batch : Batch),
        (w.inner_writers.map Prod.fst).Nodup →
        (((w.write env batch).1.inner_writers).map Prod.fst).Nodup) := by
  refine ⟨?_, ?_, ?_, ?_⟩
  · intro bld sch m k b wr hl
    unfold writeEntry
    rw [hl]
  · intro bld sch m k b hl
    unfold writeEntry
    rw [hl]
  · intro w batch sb hs
    unfold FanoutPartitionedWriter.write
    rw [hs]
  · exact fun w batch hm => write_keys_nodup env w batch hm

/-- Witness for C1: a concrete occupied-entry delegation. -/
theorem fanout_write_routes_per_key_witness :
    lookupKey [((1 : Nat), (5 : Nat))] 1 = some 5 ∧
    writeEntry demoEnv () () [(1, 5)] 1 [7] =
      (updateKey [(1, 5)] 1 (demoEnv.innerWrite 5 [7]).1, (demoEnv.innerWrite 5 [7]).2) :=
  ⟨rfl,
   (fanout_write_routes_per_key_and_keeps_keys_unique demoEnv).1 () () [(1, 5)] 1 [7] 5 rfl⟩

/-- C2: after a successful `flush` the writer holds zero inner writers
(`metrics().partition_num == 0`) and the returned record sequence has length
equal to the sum, over the drained partitions, of the number of records
yielded by each partition's inner flush. -/
theorem fanout_flush_empties_and_counts
    {K W B S Batch D PV E : Type}
    (env : FanoutEnv K W B S Batch D PV E)
    (w : FanoutPartitionedWriter K W B S) (res : List (ResultRecord D PV))
    (hok : (w.flush env).2 = Except.ok res) :
    ((w.flush env).1.metrics).partition_num = 0 ∧
    res.length = (w.inner_writers.map (fun kw => okLength (env.innerFlush kw.2))).sum := by
  constructor
  · rfl
  · have h := flushLoop_ok_length env w.inner_writers [] res hok
    simpa using h

/-- Witness for C2: flushing `demoWriter` yields two stamped records. -/
theorem fanout_flush_empties_and_counts_witness :
    (demoWriter.flush demoEnv).2 =
      Except.ok [⟨5, some 100⟩, ⟨7, some 200⟩] ∧
    ((demoWriter.flush demoEnv).1.metrics).partition_num = 0 ∧
    ([⟨5, some 100⟩, ⟨7, some 200⟩] : List (ResultRecord Nat Nat)).length =
      (demoWriter.inner_writers.map (fun kw => okLength (demoEnv.innerFlush kw.2))).sum :=
  ⟨rfl, fanout_flush_empties_and_counts demoEnv demoWriter [⟨5, some 100⟩, ⟨7, some 200⟩] rfl⟩

/-- C3: every record returned by a successful `flush` was produced by some
drained partition's inner flush and carries, as its overwritten partition
attribute, the non-empty (`some`) partition value obtained by converting
that partition's key. -/
theorem fanout_flush_stamps_partition_values
    {K W B S Batch D PV E : Type}
    (env : FanoutEnv K W B S Batch D PV E)
    (w : FanoutPartitionedWriter K W B S) (res : List (ResultRecord D PV))
    (hok : (w.flush env).2 = Except.ok res) :
    ∀ r ∈ res, ∃ k wr out pv, (k, wr) ∈ w.inner_writers ∧
      env.convert_key_to_value k = Except.ok pv ∧
      env.innerFlush wr = Except.ok out ∧
      (∃ r0 ∈ out, r = r0.set_partition (some pv)) ∧
      r.partition = some pv := by
  intro r hr
  rcases flushLoop_ok_mem env w.inner_writers [] res hok r hr with
    habs | ⟨k, wr, out, pv, h1, h2, h3, r0, hr0, heq⟩
  · simp at habs
  · exact ⟨k, wr, out, pv, h1, h2, h3, ⟨r0, hr0, heq⟩, by rw [heq]; rfl⟩

/-- Witness for C3: the first record flushed out of `demoWriter` carries the
partition value `100` converted from key `1`. -/
theorem fanout_flush_stamps_partition_values_witness :
    ∃ k wr out pv, (k, wr) ∈ demoWriter.inner_writers ∧
      demoEnv.convert_key_to_value k = Except.ok pv ∧
      demoEnv.innerFlush wr = Except.ok out ∧
      (∃ r0 ∈ out, (⟨5, some 100⟩ : ResultRecord Nat Nat) = r0.set_partition (some pv)) ∧
      (⟨5, some 100⟩ : ResultRecord Nat Nat).partition = some pv :=
  fanout_flush_stamps_partition_values demoEnv demoWriter
    [⟨5, some 100⟩, ⟨7, some 200⟩] rfl ⟨5, some 100⟩ (by simp)

/-- C4: starting from a writer with an empty map, a sequence of successful
`write` calls with no intervening `flush` leaves `metrics().partition_num`
equal to the number of distinct partition keys touched by the batches'
splits, independent of how many batches or rows were written per key. -/
theorem fanout_write_partition_num_counts_distinct_keys
    {K W B S Batch D PV E : Type} [DecidableEq K]
    (env : FanoutEnv K W B S Batch D PV E)
    (w0 : FanoutPartitionedWriter K W B S) (bs : List Batch)
    (h0 : w0.inner_writers = [])
    (hok : (writeMany env w0 bs).2 = Except.ok ()) :
    (((writeMany env w0 bs).1).metrics).partition_num =
      (collectKeys env bs).toFinset.card := by
  have hnd0 : (w0.inner_writers.map Prod.fst).Nodup := by simp [h0]
  obtain ⟨hnd, hmem⟩ := writeMany_ok_keys env bs w0 hok hnd0
  show ((writeMany env w0 bs).1.inner_writers).length = _
  calc ((writeMany env w0 bs).1.inner_writers).length
      = (((writeMany env w0 bs).1.inner_writers).map Prod.fst).length := by simp
    _ = (((writeMany env w0 bs).1.inner_writers).map Prod.fst).toFinset.card :=
        (List.toFinset_card_of_nodup hnd).symm
    _ = (collectKeys env bs).toFinset.card := by
        congr 1
        ext x
        simp only [List.mem_toFinset]
        rw [hmem x]
        simp [h0]

/-- Witness for C4: two batches touching keys `{1, 2}` and `{1, 3}` leave
three open partitions. -/
theorem fanout_write_partition_num_witness :
    demoEmptyWriter.inner_writers = [] ∧
    (writeMany demoEnv demoEmptyWriter [[1, 2], [11, 3]]).2 = Except.ok () ∧
    (((writeMany demoEnv demoEmptyWriter [[1, 2], [11, 3]]).1).metrics).partition_num =
      (collectKeys demoEnv [[1, 2], [11, 3]]).toFinset.card :=
  ⟨rfl, rfl,
   fanout_write_partition_num_counts_distinct_keys demoEnv demoEmptyWriter
     [[1, 2], [11, 3]] rfl rfl⟩

/-- C5: when the partition split of a batch fails, `write` returns that very
error and the writer is unchanged — in particular no inner writer is
created, written to or removed, and `metrics().partition_num` is
unchanged. -/
theorem fanout_write_split_failure_leaves_state
    {K W B S Batch D PV E : Type} [DecidableEq K]
    (env : FanoutEnv K W B S Batch D PV E)
    (w : FanoutPartitionedWriter K W B S) (batch : Batch) (e : E)
    (hs : env.split_by_partition batch = Except.error e) :
    w.write env batch = (w, Except.error e) ∧
    ((w.write env batch).1.metrics).partition_num = w.metrics.partition_num := by
  have h1 : w.write env batch = (w, Except.error e) := by
    unfold FanoutPartitionedWriter.write
    rw [hs]
  exact ⟨h1, by rw [h1]⟩

/-- Witness for C5: a failing split leaves `demoWriter` untouched. -/
theorem fanout_write_split_failure_witness :
    demoEnvSplitFail.split_by_partition [1] = Except.error "split" ∧
    demoWriter.write demoEnvSplitFail [1] = (demoWriter, Except.error "split") :=
  ⟨rfl, (fanout_write_split_failure_leaves_state demoEnvSplitFail demoWriter [1] "split" rfl).1⟩

/-- C6: if, while draining, some partition's inner flush fails (here the
first failing entry, every earlier entry converting and flushing cleanly),
`flush` propagates exactly that error and returns no records at all; and
since the whole map was taken up front, the writer holds zero inner writers
after the failed flush. -/
theorem fanout_flush_fail_fast_and_drains
    {K W B S Batch D PV E : Type}
    (env : FanoutEnv K W B S Batch D PV E)
    (w : FanoutPartitionedWriter K W B S)
    (l1 l2 : List (K × W)) (k : K) (wr : W) (pv : PV) (e : E)
    (hmap : w.inner_writers = l1 ++ (k, wr) :: l2)
    (hpre : ∀ p ∈ l1, ∃ pv' out, env.convert_key_to_value p.1 = Except.ok pv' ∧
      env.innerFlush p.2 = Except.ok out)
    (hconv : env.convert_key_to_value k = Except.ok pv)
    (hfail : env.innerFlush wr = Except.error e) :
    (w.flush env).2 = Except.error e ∧
    (w.flush env).1.inner_writers = [] := by
  constructor
  · show flushLoop env [] w.inner_writers = Except.error e
    rw [hmap]
    exact flushLoop_error env k wr pv e l2 hconv hfail l1 hpre []
  · rfl

/-- Witness for C6: `demoFailWriter`'s second partition fails to flush; the
whole flush errors and the map is left empty. -/
theorem fanout_flush_fail_fast_witness :
    demoFailWriter.inner_writers = [(1, 3)] ++ (2, 0) :: [] ∧
    (demoFailWriter.flush demoEnvFlushFail).2 = Except.error "flush" ∧
    (demoFailWriter.flush demoEnvFlushFail).1.inner_writers = [] := by
  refine ⟨rfl, ?_⟩
  exact fanout_flush_fail_fast_and_drains demoEnvFlushFail demoFailWriter
    [(1, 3)] [] 2 0 200 "flush" rfl
    (by
      intro p hp
      simp only [List.mem_singleton] at hp
      subst hp
      exact ⟨100, [⟨3, none⟩], rfl, rfl⟩)
    rfl rfl

/-- Counterexample for C7: the gauge is supplied externally and is not reset
at build time, so a decorator built against a gauge standing at `5` reads
`6` after a successful write that opened one partition, while the wrapped
writer's `metrics().partition_num` is `1`. -/
theorem fanout_metrics_gauge_not_partition_num :
    ¬ (((demoDecorator.write demoEnv 5 [3]).1).2 =
        ((((demoDecorator.write demoEnv 5 [3]).1).1).inner.metrics).partition_num) := by
  decide

/-- C7 (amended): provided the gauge equals the decorator's recorded
partition count before the call — as holds when the gauge starts at `0` at
build time and is mutated by nobody else — after every successful `write` or
`flush` the gauge equals `metrics().partition_num` of the wrapped writer
(the decorator recomputes the count and applies the signed delta). -/
theorem fanout_metrics_gauge_tracks_partition_num
    {K W B S Batch D PV E : Type} [DecidableEq K]
    (env : FanoutEnv K W B S Batch D PV E)
    (d : FanoutPartitionedWriterWithMetrics K W B S) (gauge : Nat) (batch : Batch)
    (hg : gauge = d.current_metrics.partition_num) :
    ((d.write env gauge batch).2 = Except.ok () →
      ((d.write env gauge batch).1).2 =
        ((((d.write env gauge batch).1).1).inner.metrics).partition_num) ∧
    (∀ res : List (ResultRecord D PV), (d.flush env gauge).2 = Except.ok res →
      ((d.flush env gauge).1).2 =
        ((((d.flush env gauge).1).1).inner.metrics).partition_num) := by
  constructor
  · intro hok
    unfold FanoutPartitionedWriterWithMetrics.write at hok ⊢
    generalize d.inner.write env batch = p at hok ⊢
    obtain ⟨w', r⟩ := p
    cases r with
    | error e => simp at hok
    | ok u => exact (update_metrics_gauge { d with inner := w' } gauge hg).1
  · intro res hok
    unfold FanoutPartitionedWriterWithMetrics.flush at hok ⊢
    generalize d.inner.flush env = p at hok ⊢
    obtain ⟨w', r⟩ := p
    cases r with
    | error e => simp at hok
    | ok out => exact (update_metrics_gauge { d with inner := w' } gauge hg).1

/-- Witness for C7 (amended): with the gauge starting at the recorded count
`0`, a successful write leaves the gauge at the open-partition count. -/
theorem fanout_metrics_gauge_tracks_witness :
    (0 : Nat) = demoDecorator.current_metrics.partition_num ∧
    ((demoDecorator.write demoEnv 0 [3]).1).2 =
      ((((demoDecorator.write demoEnv 0 [3]).1).1).inner.metrics).partition_num :=
  ⟨rfl, (fanout_metrics_gauge_tracks_partition_num demoEnv demoDecorator 0 [3] rfl).1 rfl⟩

/-- C8: appending trailing columns that no partition field projects does not
change the grouping — the split of the extended rows and the split of the
bare rows are images of one and the same grouping of the paired rows, with
each extended sub-batch carrying the bare rows' trailing values unchanged,
row for row. -/
theorem partition_split_ignores_trailing_columns
    {V PVal : Type} [DecidableEq PVal] (dflt : V)
    (fields : List (Nat × (V → PVal))) (paired : List (List V × List V)) (width : Nat)
    (hrow : ∀ p ∈ paired, p.1.length = width)
    (hf : ∀ f ∈ fields, f.1 < width) :
    PartitionSplitter.split_by_partition dflt fields (paired.map (fun p => p.1 ++ p.2)) =
      (PartitionSplitter.splitGeneric
          (fun p => PartitionSplitter.rowKey dflt fields p.1) paired).map
        (fun kb => (kb.1, kb.2.map (fun p => p.1 ++ p.2))) ∧
    PartitionSplitter.split_by_partition dflt fields (paired.map Prod.fst) =
      (PartitionSplitter.splitGeneric
          (fun p => PartitionSplitter.rowKey dflt fields p.1) paired).map
        (fun kb => (kb.1, kb.2.map Prod.fst)) := by
  constructor
  · exact splitGeneric_map _ _ _ paired
      (fun p hp => rowKey_append dflt fields p.1 p.2 width (hrow p hp) hf)
  · exact splitGeneric_map _ _ _ paired (fun p hp => rfl)

/-- Witness for C8: three two-column rows with a trailing marker column
group exactly as without it, markers carried through. -/
theorem partition_split_ignores_trailing_witness :
    (∀ p ∈ demoPaired, p.1.length = 2) ∧
    PartitionSplitter.split_by_partition 0 demoFields (demoPaired.map (fun p => p.1 ++ p.2)) =
      (PartitionSplitter.splitGeneric
          (fun p => PartitionSplitter.rowKey 0 demoFields p.1) demoPaired).map
        (fun kb => (kb.1, kb.2.map (fun p => p.1 ++ p.2))) :=
  ⟨by decide,
   (partition_split_ignores_trailing_columns 0 demoFields demoPaired 2
      (by decide)
      (by
        intro f hfm
        simp only [demoFields, List.mem_singleton] at hfm
        subst hfm
        decide)).1⟩

/-- C9 (implicit): during `write`, when a fresh key's sub-batch reaches a
newly built inner writer and that inner write fails, the new writer stays
inserted in the map (so `metrics().partition_num` counts the new key even
though the call errored); whereas a failing build inserts nothing. -/
theorem fanout_write_failed_insert_stays
    {K W B S Batch D PV E : Type} [DecidableEq K]
    (env : FanoutEnv K W B S Batch D PV E)
    (w : FanoutPartitionedWriter K W B S) (batch : Batch) (k : K) (b : Batch)
    (hsplit : env.split_by_partition batch = Except.ok [(k, b)])
    (hfresh : lookupKey w.inner_writers k = none) :
    (∀ nw w2 e, env.build w.inner_buidler w.schema = Except.ok nw →
        env.innerWrite nw b = (w2, Except.error e) →
        (w.write env batch).1.inner_writers = w.inner_writers ++ [(k, w2)] ∧
        (w.write env batch).2 = Except.error e ∧
        ((w.write env batch).1.metrics).partition_num = w.metrics.partition_num + 1) ∧
    (∀ e, env.build w.inner_buidler w.schema = Except.error e →
        (w.write env batch).1 = w ∧ (w.write env batch).2 = Except.error e) := by
  constructor
  · intro nw w2 e hb hwr
    have hgroups : writeGroups env w.inner_buidler w.schema w.inner_writers [(k, b)] =
        (w.inner_writers ++ [(k, w2)], Except.error e) := by
      simp [writeGroups, writeEntry, hfresh, hb, hwr]
    have hw1 : w.write env batch =
        ({ w with inner_writers := w.inner_writers ++ [(k, w2)] }, Except.error e) := by
      simp [FanoutPartitionedWriter.write, hsplit, hgroups]
    rw [hw1]
    refine ⟨rfl, rfl, ?_⟩
    simp [FanoutPartitionedWriter.metrics]
  · intro e hb
    have hgroups : writeGroups env w.inner_buidler w.schema w.inner_writers [(k, b)] =
        (w.inner_writers, Except.error e) := by
      simp [writeGroups, writeEntry, hfresh, hb]
    have hw1 : w.write env batch = (w, Except.error e) := by
      simp [FanoutPartitionedWriter.write, hsplit, hgroups]
    rw [hw1]
    exact ⟨rfl, rfl⟩

/-- Witness for C9: a fresh key whose first inner write fails still ends up
in the map, with the partition count grown by one. -/
theorem fanout_write_failed_insert_witness :
    demoEnvWriteFail.split_by_partition [3] = Except.ok [(3, [3])] ∧
    lookupKey demoEmptyWriter.inner_writers 3 = none ∧
    (demoEmptyWriter.write demoEnvWriteFail [3]).1.inner_writers =
      demoEmptyWriter.inner_writers ++ [(3, 1)] ∧
    (demoEmptyWriter.write demoEnvWriteFail [3]).2 = Except.error "write" ∧
    ((demoEmptyWriter.write demoEnvWriteFail [3]).1.metrics).partition_num =
      demoEmptyWriter.metrics.partition_num + 1 :=
  ⟨rfl, rfl,
   (fanout_write_failed_insert_stays demoEnvWriteFail demoEmptyWriter [3] 3 [3]
      rfl rfl).1 0 1 "write" rfl rfl⟩

/-- C10 (implicit): flushing a writer whose map is empty (freshly built, or
right after a previous flush) succeeds with zero records and leaves the map
empty; in particular a second consecutive flush returns `Ok` with no
records. -/
theorem fanout_flush_empty_map_ok
    {K W B S Batch D PV E PT PS : Type}
    (env : FanoutEnv K W B S Batch D PV E)
    (w : FanoutPartitionedWriter K W B S) (hw : w.inner_writers = [])
    (bld : FanoutPartitionedWriterBuilder B PT PS) (setup : Except E Unit) (schema : S) :
    w.flush env = (w, Except.ok []) ∧
    (∀ w2 : FanoutPartitionedWriter K W B S,
      (w2.flush env).1.flush env = ((w2.flush env).1, Except.ok [])) ∧
    (∀ w' : FanoutPartitionedWriter K W B S,
      FanoutPartitionedWriterBuilder.build K W bld setup schema = Except.ok w' →
      w'.inner_writers = []) := by
  refine ⟨?_, fun w2 => rfl, ?_⟩
  · obtain ⟨iw, bld', sch⟩ := w
    simp only at hw
    subst hw
    rfl
  · intro w' h
    cases setup with
    | error e => simp [FanoutPartitionedWriterBuilder.build] at h
    | ok u =>
      simp only [FanoutPartitionedWriterBuilder.build, Except.ok.injEq] at h
      rw [← h]

/-- Witness for C10: flushing the fresh `demoEmptyWriter` returns no
records and leaves it unchanged. -/
theorem fanout_flush_empty_map_witness :
    demoEmptyWriter.inner_writers = [] ∧
    demoEmptyWriter.flush demoEnv = (demoEmptyWriter, Except.ok []) :=
  ⟨rfl,
   (fanout_flush_empty_map_ok demoEnv demoEmptyWriter rfl demoBuilder (Except.ok ()) ()).1⟩
